import Mathlib

/-
Verification of the versioned table store with catalog registration
(neuralake): a shallow embedding of src/neuralake/src/catalog_core.py and
src/neuralake/src/delta_tables.py, followed by theorems settling the
spec claims.

Modelling conventions:
- Python dicts are insertion-ordered association lists; assignment to an
  existing key replaces the value in place (keeping the key's original
  position), assignment to a fresh key appends at the end.
- Python exceptions are Except.error carrying the message.
- Row contents of polars frames are abstracted to a type parameter rho;
  a DataFrame or LazyFrame is modelled by its row list.
- datetime values are modelled by Nat ticks; datetime.now() becomes an
  explicit clock argument.
- logging calls are modelled by returning the list of emitted records.
-/

set_option autoImplicit false

namespace Neuralake

/-! ## Python dict model (insertion-ordered association lists) -/

/-- Lookup in a Python dict modelled as an association list
(dict.get: returns None when the key is absent). -/
def dictGet {α : Type} (k : String) : List (String × α) → Option α
  | [] => none
  | (k', v) :: rest => if k' = k then some v else dictGet k rest

/-- Assignment d[k] = v in a Python dict: replaces the value in place when
the key exists (keeping its insertion position), else appends the key. -/
def dictInsert {α : Type} (k : String) (v : α) : List (String × α) → List (String × α)
  | [] => [(k, v)]
  | (k', v') :: rest => if k' = k then (k, v) :: rest else (k', v') :: dictInsert k v rest

/-- The keys of a dict in insertion order (dict.keys()). -/
def dictKeys {α : Type} (d : List (String × α)) : List String :=
  d.map Prod.fst

/-! ## JSON-like documents (serialized metadata) -/

/-- A JSON-like document as produced by the metadata serialization code.
ISO-formatted datetime strings are represented by their Nat tick via num. -/
inductive Doc where
  | str (s : String)
  | num (n : Nat)
  | bool (b : Bool)
  | arr (xs : List Doc)
  | obj (fields : List (String × Doc))

/-- Field access on an object document. -/
def Doc.field (d : Doc) (k : String) : Option Doc :=
  match d with
  | Doc.obj fs => dictGet k fs
  | _ => none

/-- The export_time field of an export document, as a Nat (0 if absent). -/
def exportTimeOf (d : Doc) : Nat :=
  match Doc.field d "export_time" with
  | some (Doc.num n) => n
  | _ => 0

/-! ## Catalog data model (catalog_core.py) -/

/-- TableType enum (catalog_core.py lines 28-33). -/
inductive TableType where
  | parquet
  | delta
  | function
  | view
deriving DecidableEq, Repr

/-- The .value attribute of the TableType enum. -/
def TableType.value : TableType → String
  | TableType.parquet => "parquet"
  | TableType.delta => "delta"
  | TableType.function => "function"
  | TableType.view => "view"

/-- TableMetadata dataclass (catalog_core.py lines 35-47). Field order:
name, tableType, description, schema, partitionColumns, sourceModule,
sourceFunction, createdAt, tags, owner. created_at is a Nat tick. -/
structure TableMetadata where
  name : String
  tableType : TableType
  description : String
  schema : Option (List (String × String))
  partitionColumns : List String
  sourceModule : String
  sourceFunction : String
  createdAt : Nat
  tags : List String
  owner : String
deriving DecidableEq, Repr

/-- TableMetadata.to_dict (catalog_core.py lines 49-62); the schema field
uses self.schema or an empty dict, created_at.isoformat() is represented by
the tick. -/
def TableMetadata.to_dict (m : TableMetadata) : Doc :=
  Doc.obj
    [("name", Doc.str m.name),
     ("table_type", Doc.str m.tableType.value),
     ("description", Doc.str m.description),
     ("schema", Doc.obj (match m.schema with
       | some s => s.map (fun p => (p.1, Doc.str p.2))
       | none => [])),
     ("partition_columns", Doc.arr (m.partitionColumns.map Doc.str)),
     ("source_module", Doc.str m.sourceModule),
     ("source_function", Doc.str m.sourceFunction),
     ("created_at", Doc.num m.createdAt),
     ("tags", Doc.arr (m.tags.map Doc.str)),
     ("owner", Doc.str m.owner)]

/-- Level of a record emitted through the logging module. -/
inductive LogLevel where
  | info
  | warning
deriving DecidableEq, Repr

/-- A record emitted through the logging module. -/
structure LogRecord where
  level : LogLevel
  message : String
deriving DecidableEq, Repr

/-- Keyword arguments of a Python call; the catalog passes them through
opaquely, so string values suffice. -/
abbrev Kwargs := List (String × String)

/-- A Python value returned by a table producer function or a table
object's query: an eager polars DataFrame (modelled by its rows), a lazy
polars LazyFrame (modelled by its rows), or any other value. For an other
value, convertsTo is the row list pl.LazyFrame(value) would yield, or none
when that constructor would raise. -/
inductive PyValue (ρ : Type) where
  | dataFrame (rows : List ρ)
  | lazyFrame (rows : List ρ)
  | other (convertsTo : Option (List ρ))

/-- A registered table function: called with kwargs, returns a Python value
or raises (Except.error). -/
abbrev Producer (ρ : Type) := Kwargs → Except String (PyValue ρ)

/-- A registered static table object (a NeuralakeDeltaTable or a
Parquet-like object). isDelta models isinstance(obj, NeuralakeDeltaTable);
run models invoking its query method (or calling the object itself when no
query attribute exists) with the given kwargs. -/
structure TableObject (ρ : Type) where
  isDelta : Bool
  run : Kwargs → Except String (PyValue ρ)

/-- CatalogRegistry state (catalog_core.py lines 64-70): the three dicts
_tables, _table_functions, _table_objects. -/
structure CatalogRegistry (ρ : Type) where
  tables : List (String × TableMetadata)
  tableFunctions : List (String × Producer ρ)
  tableObjects : List (String × TableObject ρ)

/-- The freshly initialized registry (CatalogRegistry.__init__). -/
def CatalogRegistry.empty {ρ : Type} : CatalogRegistry ρ :=
  ⟨[], [], []⟩

/-- CatalogRegistry.register_table (catalog_core.py lines 72-84): writes the
metadata dict unconditionally, writes each handle dict only when the
corresponding argument is not None, then logs one info-level record.
Returns the new registry and the emitted log records. -/
def CatalogRegistry.register_table {ρ : Type} (r : CatalogRegistry ρ)
    (metadata : TableMetadata) (table_obj : Option (TableObject ρ))
    (table_func : Option (Producer ρ)) : CatalogRegistry ρ × List LogRecord :=
  let tables' := dictInsert metadata.name metadata r.tables
  let objects' := match table_obj with
    | some o => dictInsert metadata.name o r.tableObjects
    | none => r.tableObjects
  let functions' := match table_func with
    | some f => dictInsert metadata.name f r.tableFunctions
    | none => r.tableFunctions
  (⟨tables', functions', objects'⟩,
   [⟨LogLevel.info,
     "Registered table " ++ metadata.name ++ " of type " ++ metadata.tableType.value⟩])

/-- CatalogRegistry.get_table_metadata (catalog_core.py lines 86-88). -/
def CatalogRegistry.get_table_metadata {ρ : Type} (r : CatalogRegistry ρ)
    (name : String) : Option TableMetadata :=
  dictGet name r.tables

/-- CatalogRegistry.get_table_function (catalog_core.py lines 90-92). -/
def CatalogRegistry.get_table_function {ρ : Type} (r : CatalogRegistry ρ)
    (name : String) : Option (Producer ρ) :=
  dictGet name r.tableFunctions

/-- CatalogRegistry.get_table_object (catalog_core.py lines 94-96). -/
def CatalogRegistry.get_table_object {ρ : Type} (r : CatalogRegistry ρ)
    (name : String) : Option (TableObject ρ) :=
  dictGet name r.tableObjects

/-- CatalogRegistry.list_tables (catalog_core.py lines 98-104). -/
def CatalogRegistry.list_tables {ρ : Type} (r : CatalogRegistry ρ)
    (table_type : Option TableType) : List String :=
  match table_type with
  | none => dictKeys r.tables
  | some t => (r.tables.filter (fun p => decide (p.2.tableType = t))).map Prod.fst

/-- CatalogRegistry.export_metadata (catalog_core.py lines 106-113):
export_time is datetime.now().isoformat(), made explicit as the clock
argument now. -/
def CatalogRegistry.export_metadata {ρ : Type} (r : CatalogRegistry ρ)
    (now : Nat) : Doc :=
  Doc.obj
    [("tables", Doc.obj (r.tables.map (fun p => (p.1, p.2.to_dict)))),
     ("export_time", Doc.num now),
     ("total_tables", Doc.num r.tables.length)]

/-! ## Catalog facade (catalog_core.py lines 199-299) -/

/-- Errors raised by the Catalog facade. The source raises ValueError with
distinct messages; each message becomes a constructor. raised models an
exception propagating out of a producer or table-object call. -/
inductive CatalogError where
  | notFound (name : String)
  | functionNotFound (name : String)
  | objectNotFound (name : String)
  | typeKindError (name : String)
  | unsupportedType (name : String)
  | raised (msg : String)
deriving DecidableEq, Repr

/-- The DELTA/PARQUET branch of Catalog.table (catalog_core.py lines
238-259): a NeuralakeDeltaTable's query result is returned unchanged; any
other object's result is wrapped as lazy, with pl.LazyFrame(result) used on
a non-frame result. -/
def Catalog.tableFromObject {ρ : Type} (r : CatalogRegistry ρ) (name : String)
    (kwargs : Kwargs) : Except CatalogError (PyValue ρ) :=
  match CatalogRegistry.get_table_object r name with
  | none => Except.error (CatalogError.objectNotFound name)
  | some obj =>
    if obj.isDelta then
      match obj.run kwargs with
      | Except.error e => Except.error (CatalogError.raised e)
      | Except.ok v => Except.ok v
    else
      match obj.run kwargs with
      | Except.error e => Except.error (CatalogError.raised e)
      | Except.ok (PyValue.dataFrame rows) => Except.ok (PyValue.lazyFrame rows)
      | Except.ok (PyValue.lazyFrame rows) => Except.ok (PyValue.lazyFrame rows)
      | Except.ok (PyValue.other c) =>
        match c with
        | some rows => Except.ok (PyValue.lazyFrame rows)
        | none => Except.error (CatalogError.raised "could not convert result to LazyFrame")

/-- Catalog.table (catalog_core.py lines 207-262): resolve the metadata
(ValueError if absent), dispatch on table_type; for FUNCTION tables invoke
the producer with the kwargs, pass a LazyFrame through, wrap a DataFrame as
lazy, and raise ValueError (the producer must return DataFrame or
LazyFrame) on anything else. -/
def Catalog.table {ρ : Type} (r : CatalogRegistry ρ) (name : String)
    (kwargs : Kwargs) : Except CatalogError (PyValue ρ) :=
  match CatalogRegistry.get_table_metadata r name with
  | none => Except.error (CatalogError.notFound name)
  | some metadata =>
    match metadata.tableType with
    | TableType.function =>
      match CatalogRegistry.get_table_function r name with
      | none => Except.error (CatalogError.functionNotFound name)
      | some func =>
        match func kwargs with
        | Except.error e => Except.error (CatalogError.raised e)
        | Except.ok (PyValue.dataFrame rows) => Except.ok (PyValue.lazyFrame rows)
        | Except.ok (PyValue.lazyFrame rows) => Except.ok (PyValue.lazyFrame rows)
        | Except.ok (PyValue.other _) => Except.error (CatalogError.typeKindError name)
    | TableType.delta => Catalog.tableFromObject r name kwargs
    | TableType.parquet => Catalog.tableFromObject r name kwargs
    | TableType.view => Except.error (CatalogError.unsupportedType name)

/-- Catalog.describe_table (catalog_core.py lines 268-288): resolve the
metadata (ValueError if absent); probe self.table(name).limit(1).collect()
inside a try block, inferring a schema from the sample via the columns and
dtypes of the collected frame (the schemaOf argument models that polars
operation); any probe exception is caught and degrades the inferred schema
to an empty dict. A collect() call on an eager or non-frame probe value
raises and is likewise caught. Returns the four-key result dict. -/
def Catalog.describe_table {ρ : Type} (r : CatalogRegistry ρ)
    (schemaOf : List ρ → List (String × String)) (name : String) :
    Except CatalogError (List (String × Doc)) :=
  match CatalogRegistry.get_table_metadata r name with
  | none => Except.error (CatalogError.notFound name)
  | some metadata =>
    let inferred_schema : List (String × String) :=
      match Catalog.table r name [] with
      | Except.ok (PyValue.lazyFrame rows) => schemaOf (rows.take 1)
      | Except.ok (PyValue.dataFrame _) => []
      | Except.ok (PyValue.other _) => []
      | Except.error _ => []
    Except.ok
      [("metadata", metadata.to_dict),
       ("inferred_schema", Doc.obj (inferred_schema.map (fun p => (p.1, Doc.str p.2)))),
       ("column_count", Doc.num inferred_schema.length),
       ("available", Doc.bool true)]

/-! ## Delta table store (delta_tables.py) -/

/-- A commit's effect on the table contents: the initial create, an append,
or an overwrite of the whole snapshot. -/
inductive DeltaOp (ρ : Type) where
  | create (rows : List ρ)
  | append (rows : List ρ)
  | overwrite (rows : List ρ)
deriving DecidableEq, Repr

/-- One committed entry of the table's version log: version i is the entry
at index i; timestamp is the commit time. -/
structure DeltaCommit (ρ : Type) where
  op : DeltaOp ρ
  timestamp : Nat
deriving DecidableEq, Repr

/-- The version log of a Delta table; the table exists iff the log is
nonempty, and the current version is length - 1. -/
abbrev DeltaLog (ρ : Type) := List (DeltaCommit ρ)

/-- Applying one commit to the accumulated snapshot rows. -/
def applyOp {ρ : Type} (acc : List ρ) : DeltaOp ρ → List ρ
  | DeltaOp.create rows => rows
  | DeltaOp.append rows => acc ++ rows
  | DeltaOp.overwrite rows => rows

/-- The rows of the snapshot obtained by replaying the whole log. -/
def snapshotRows {ρ : Type} (log : DeltaLog ρ) : List ρ :=
  log.foldl (fun acc c => applyOp acc c.op) []

/-- NeuralakeDeltaTable.version (delta_tables.py lines 70-73): the current
version, None when the table does not exist. -/
def NeuralakeDeltaTable.version {ρ : Type} (log : DeltaLog ρ) : Option Nat :=
  if log.isEmpty then none else some (log.length - 1)

/-- Modelled from the spec: the commit operation of the external Delta
writer (deltalake.write_deltalake, not part of src/), per section 4.3 and
the put-if-absent object-store interface of section 6 — an error-mode write
fails when the table already exists (no silent overwrite), an
overwrite-mode write replaces the snapshot, an append-mode write adds rows;
each successful write appends one commit at the next version. -/
def write_deltalake {ρ : Type} (log : DeltaLog ρ) (rows : List ρ)
    (mode : String) (now : Nat) : Except String (DeltaLog ρ) :=
  if mode = "overwrite" then Except.ok (log ++ [⟨DeltaOp.overwrite rows, now⟩])
  else if mode = "append" then Except.ok (log ++ [⟨DeltaOp.append rows, now⟩])
  else if log.isEmpty then Except.ok [⟨DeltaOp.create rows, now⟩]
  else Except.error "DeltaError: table already exists"

/-- NeuralakeDeltaTable.create_table (delta_tables.py lines 80-120): raises
before any write when the table exists and mode is the default error mode;
otherwise delegates to the writer with mode overwrite when overwrite was
requested and mode error otherwise. An error leaves the log unchanged. The
partition_by argument affects only physical file layout and is not
modelled. -/
def NeuralakeDeltaTable.create_table {ρ : Type} (table_name : String)
    (log : DeltaLog ρ) (rows : List ρ) (mode : String) (now : Nat) :
    Except String (DeltaLog ρ) :=
  if ¬log.isEmpty ∧ mode = "error" then
    Except.error ("Table " ++ table_name ++ " already exists")
  else
    write_deltalake log rows (if mode = "overwrite" then "overwrite" else "error") now

/-- NeuralakeDeltaTable.insert (delta_tables.py lines 122-157): raises when
the table does not exist, else delegates to the writer with the given mode
(append by default) and schema_mode merge. -/
def NeuralakeDeltaTable.insert {ρ : Type} (table_name : String)
    (log : DeltaLog ρ) (rows : List ρ) (mode : String) (now : Nat) :
    Except String (DeltaLog ρ) :=
  if log.isEmpty then
    Except.error ("Table " ++ table_name ++ " does not exist. Use create_table() first.")
  else
    write_deltalake log rows mode now

/-- NeuralakeDeltaTable.query (delta_tables.py lines 159-213): raises when
the table does not exist; loads the table at the requested version when
version is given (raising when that version never existed); when only
timestamp is given the source formats timestamp_str but then reloads the
table WITHOUT it (lines 192-200), so the result is the latest snapshot;
with neither, the latest snapshot. Column selection and filters only
project the returned rows and are not modelled. -/
def NeuralakeDeltaTable.query {ρ : Type} (table_name : String)
    (log : DeltaLog ρ) (version : Option Nat) (timestamp : Option Nat) :
    Except String (List ρ) :=
  if log.isEmpty then Except.error ("Table " ++ table_name ++ " does not exist")
  else
    match version with
    | some v =>
      if v + 1 ≤ log.length then Except.ok (snapshotRows (log.take (v + 1)))
      else Except.error "DeltaError: invalid version"
    | none =>
      match timestamp with
      | some _ => Except.ok (snapshotRows log)
      | none => Except.ok (snapshotRows log)

/-- A polars DataFrame in column orientation: column name to cell list,
cells rendered as strings. -/
abbrev Frame := List (String × List String)

/-- Model of constructing a polars DataFrame from a dict of columns: polars
raises a ShapeError when the columns do not all have the same length. -/
def mkFrameOfColumns (cols : Frame) : Except String Frame :=
  match cols with
  | [] => Except.ok []
  | c :: rest =>
    if rest.all (fun c2 => decide (c2.2.length = c.2.length)) then Except.ok (c :: rest)
    else Except.error "ShapeError: could not create a new DataFrame: columns have differing lengths"

/-- NeuralakeDeltaTable.get_history (delta_tables.py lines 215-249): raises
when the table does not exist; otherwise converts the underlying history
call's result (the raw argument, Except.error when that call raises) to a
frame and returns it; on any exception the handler builds a fallback frame
whose version and operation columns hold one element (the table exists, so
self.version is not None) while the timestamp column is empty. -/
def NeuralakeDeltaTable.get_history {ρ : Type} (table_name : String)
    (log : DeltaLog ρ) (raw : Except String Frame) : Except String Frame :=
  if log.isEmpty then Except.error ("Table " ++ table_name ++ " does not exist")
  else
    match raw with
    | Except.ok history_data => Except.ok history_data
    | Except.error _ =>
      mkFrameOfColumns
        [("version", match NeuralakeDeltaTable.version log with
           | some v => [toString v]
           | none => []),
         ("timestamp", []),
         ("operation", match NeuralakeDeltaTable.version log with
           | some _ => ["CREATE"]
           | none => [])]

/-! ## Schema merge (spec section 4.4) -/

/-- An ordered schema: column name to logical type. -/
abbrev Schema := List (String × String)

/-- Modelled from the spec: the additive schema merge performed by the
external Delta writer when insert passes schema_mode merge
(delta_tables.py line 143; the merge itself is inside deltalake, not in
src/). Section 4.4: for each column present in both schemas the types must
match exactly (SchemaConflictError otherwise); columns only in the new
schema are appended; columns only in the old schema remain. -/
def mergeSchemas (old new : Schema) : Except String Schema :=
  if new.all (fun c => match dictGet c.1 old with
      | none => true
      | some t => decide (t = c.2)) then
    Except.ok (old ++ new.filter (fun c => (dictGet c.1 old).isNone))
  else Except.error "SchemaConflictError"

/-! ## Specification-side definitions (for comparison only) -/

/-- Specification-side definition, following the spec's words for query
with as_of_timestamp (section 4.3): the largest committed version whose
commit timestamp is at most the requested timestamp. -/
def spec_asOfVersion {ρ : Type} (log : DeltaLog ρ) (ts : Nat) : Option Nat :=
  ((List.range log.length).filter (fun i =>
    match log.get? i with
    | some c => decide (c.timestamp ≤ ts)
    | none => false)).getLast?

/-- Specification-side definition: the snapshot rows at the latest
committed version whose timestamp is at most the given as_of timestamp. -/
def spec_asOfRows {ρ : Type} (log : DeltaLog ρ) (ts : Nat) : Option (List ρ) :=
  (spec_asOfVersion log ts).map (fun v => snapshotRows (log.take (v + 1)))

/-! ## Registration replay and registry invariants -/

/-- One registration event: the metadata plus the optional handles passed
to register_table (by the table decorator or register_static_table). -/
structure Registration (ρ : Type) where
  metadata : TableMetadata
  obj : Option (TableObject ρ)
  func : Option (Producer ρ)

/-- Replay a sequence of registrations against a registry (log records
discarded). -/
def registerAll {ρ : Type} (r : CatalogRegistry ρ) :
    List (Registration ρ) → CatalogRegistry ρ
  | [] => r
  | e :: es => registerAll (CatalogRegistry.register_table r e.metadata e.obj e.func).1 es

/-- The first occurrences of the names in a list, in order, skipping names
already seen. -/
def firstOccAux (seen : List String) : List String → List String
  | [] => []
  | k :: ks => if k ∈ seen then firstOccAux seen ks else k :: firstOccAux (k :: seen) ks

/-- The names of a registration sequence in order of first registration. -/
def firstOccurrences (l : List String) : List String :=
  firstOccAux [] l

/-- The kind currently registered under a name, if any. -/
def registeredKind {ρ : Type} (r : CatalogRegistry ρ) (n : String) : Option TableType :=
  (CatalogRegistry.get_table_metadata r n).map TableMetadata.tableType

/-- Registry well-formedness: every name holding a handle also holds
metadata. Freshly initialized registries satisfy this and register_table
preserves it. -/
def CatalogRegistry.Wf {ρ : Type} (r : CatalogRegistry ρ) : Prop :=
  (∀ n ∈ dictKeys r.tableFunctions, n ∈ dictKeys r.tables) ∧
    (∀ n ∈ dictKeys r.tableObjects, n ∈ dictKeys r.tables)

/-- True exactly on a successful (non-raising) result. -/
def exceptIsOk {ε α : Type} : Except ε α → Bool
  | Except.ok _ => true
  | Except.error _ => false

/-! ## Concrete sample data for witnesses and counterexamples -/

/-- Metadata of a function-kind table named t. -/
def mdT1 : TableMetadata :=
  ⟨"t", TableType.function, "", none, [], "", "t", 0, [], ""⟩

/-- Metadata of a delta-kind table, also named t. -/
def mdT2 : TableMetadata :=
  ⟨"t", TableType.delta, "", none, [], "", "", 1, [], ""⟩

/-- A producer returning a lazy frame with one row. -/
def prodLazy1 : Producer Nat :=
  fun _ => Except.ok (PyValue.lazyFrame [1])

/-- A producer returning a value that is neither a DataFrame nor a
LazyFrame. -/
def prodOther : Producer Nat :=
  fun _ => Except.ok (PyValue.other none)

/-- A producer that raises. -/
def prodBoom : Producer Nat :=
  fun _ => Except.error "producer exploded"

/-- A delta-backed static table object. -/
def objDelta : TableObject Nat :=
  ⟨true, fun _ => Except.ok (PyValue.dataFrame [2])⟩

/-- Registry after registering the function table t with prodLazy1. -/
def regT1 : CatalogRegistry Nat :=
  (CatalogRegistry.register_table CatalogRegistry.empty mdT1 none (some prodLazy1)).1

/-- Registry after re-registering t as a delta table with an object handle
and no function handle. -/
def regT2 : CatalogRegistry Nat :=
  (CatalogRegistry.register_table regT1 mdT2 (some objDelta) none).1

/-- The log records emitted by the overwriting second registration of t. -/
def regT2Log : List LogRecord :=
  (CatalogRegistry.register_table regT1 mdT2 (some objDelta) none).2

/-- Metadata of a function-kind table named bad whose producer returns a
non-frame value. -/
def mdBad : TableMetadata :=
  ⟨"bad", TableType.function, "", none, [], "", "bad", 0, [], ""⟩

/-- Registry holding the table bad backed by prodOther. -/
def regBad : CatalogRegistry Nat :=
  (CatalogRegistry.register_table CatalogRegistry.empty mdBad none (some prodOther)).1

/-- Metadata of a function-kind table named boom whose producer raises. -/
def mdBoom : TableMetadata :=
  ⟨"boom", TableType.function, "", none, [], "", "boom", 0, [], ""⟩

/-- Registry holding the table boom backed by the raising producer. -/
def regBoom : CatalogRegistry Nat :=
  (CatalogRegistry.register_table CatalogRegistry.empty mdBoom none (some prodBoom)).1

/-- A schema-inference stub for probes over Nat rows. -/
def schemaOfNat : List Nat → List (String × String) :=
  fun _ => [("x", "Int64")]

/-- A two-version log: version 0 committed at time 10 with rows [1],
version 1 appended at time 20 adding row 2. -/
def c1Log : DeltaLog Nat :=
  [⟨DeltaOp.create [1], 10⟩, ⟨DeltaOp.append [2], 20⟩]

/-- A one-version log: version 0 committed at time 0 with rows [1]. -/
def c2Log : DeltaLog Nat :=
  [⟨DeltaOp.create [1], 0⟩]

/-- A one-column old schema. -/
def scmOld : Schema := [("a", "int")]

/-- A one-column new schema disjoint from scmOld. -/
def scmNew : Schema := [("b", "str")]

/-- The merge of scmOld and scmNew. -/
def scmM : Schema := [("a", "int"), ("b", "str")]

/-! ## Association-list lemmas -/

theorem dictGet_insert_self {α : Type} (k : String) (v : α)
    (d : List (String × α)) : dictGet k (dictInsert k v d) = some v := by
  induction d with
  | nil => simp [dictInsert, dictGet]
  | cons hd tl ih =>
    obtain ⟨k', v'⟩ := hd
    by_cases h : k' = k
    · simp [dictInsert, dictGet, h]
    · simp [dictInsert, dictGet, h, ih]

theorem dictGet_eq_none {α : Type} (k : String) (d : List (String × α))
    (h : k ∉ dictKeys d) : dictGet k d = none := by
  induction d with
  | nil => rfl
  | cons hd tl ih =>
    obtain ⟨k', v'⟩ := hd
    simp only [dictKeys, List.map_cons, List.mem_cons] at h
    push_neg at h
    have h1 : k' ≠ k := fun hh => h.1 hh.symm
    simp [dictGet, h1]
    exact ih h.2

theorem dictGet_mem_nodup {α : Type} {k : String} {v : α}
    {d : List (String × α)} (hnd : (dictKeys d).Nodup) (hm : (k, v) ∈ d) :
    dictGet k d = some v := by
  induction d with
  | nil => cases hm
  | cons hd tl ih =>
    obtain ⟨k', v'⟩ := hd
    simp only [dictKeys, List.map_cons, List.nodup_cons] at hnd
    rcases List.mem_cons.mp hm with heq | htl
    · obtain ⟨hk, hv⟩ := Prod.mk.injEq .. ▸ heq
      simp [dictGet, hk.symm, hv]
    · have hne : k' ≠ k := by
        intro hh
        exact hnd.1 (hh ▸ (List.mem_map.mpr ⟨(k, v), htl, rfl⟩))
      simp [dictGet, hne]
      exact ih hnd.2 htl

theorem dictKeys_insert {α : Type} (k : String) (v : α)
    (d : List (String × α)) :
    dictKeys (dictInsert k v d)
      = if k ∈ dictKeys d then dictKeys d else dictKeys d ++ [k] := by
  induction d with
  | nil => simp [dictInsert, dictKeys]
  | cons hd tl ih =>
    obtain ⟨k', v'⟩ := hd
    by_cases h : k' = k
    · simp [dictInsert, dictKeys, h]
    · have h2 : ¬k = k' := fun hh => h hh.symm
      simp only [dictInsert, if_neg h, dictKeys, List.map_cons, List.mem_cons, h2,
        false_or]
      by_cases hm : k ∈ dictKeys tl
      · simp only [dictKeys] at hm ih
        simp [hm, ih]
      · simp only [dictKeys] at hm ih
        simp [hm, ih]

theorem mem_dictKeys_insert {α : Type} {n k : String} (v : α)
    (d : List (String × α)) (h : n ∈ dictKeys d) :
    n ∈ dictKeys (dictInsert k v d) := by
  rw [dictKeys_insert]
  by_cases hm : k ∈ dictKeys d
  · simpa [hm] using h
  · simp [hm, h]

theorem self_mem_dictKeys_insert {α : Type} (k : String) (v : α)
    (d : List (String × α)) : k ∈ dictKeys (dictInsert k v d) := by
  rw [dictKeys_insert]
  by_cases hm : k ∈ dictKeys d
  · simp [hm]
  · simp [hm]

theorem dictKeys_insert_nodup {α : Type} (k : String) (v : α)
    (d : List (String × α)) (h : (dictKeys d).Nodup) :
    (dictKeys (dictInsert k v d)).Nodup := by
  rw [dictKeys_insert]
  by_cases hm : k ∈ dictKeys d
  · simpa [hm]
  · simp only [hm, if_false]
    simp [List.nodup_append, h, hm]

theorem dictGet_append {α : Type} (k : String) (l₁ l₂ : List (String × α)) :
    dictGet k (l₁ ++ l₂)
      = match dictGet k l₁ with
        | some v => some v
        | none => dictGet k l₂ := by
  induction l₁ with
  | nil => simp [dictGet]
  | cons hd tl ih =>
    obtain ⟨k', v'⟩ := hd
    by_cases h : k' = k
    · simp [dictGet, h]
    · simp [dictGet, h, ih]

/-! ## Claim theorems -/

/-- C1 (code_bug evidence): for every existing table, query with
as_of_timestamp set and version unset returns the latest snapshot, not the
snapshot at the latest version whose timestamp is at most the requested
one — the timestamp argument is ignored (delta_tables.py lines 192-200
format timestamp_str but never use it). On the concrete two-version log
c1Log the code returns the latest rows [1, 2] at as_of_timestamp 10, while
the specified behaviour selects version 0, whose rows are [1]. -/
theorem query_as_of_timestamp_not_implemented {ρ : Type} (table_name : String)
    (log : DeltaLog ρ) (ts : Nat) :
    NeuralakeDeltaTable.query table_name log none (some ts)
        = NeuralakeDeltaTable.query table_name log none none ∧
      NeuralakeDeltaTable.query "events" c1Log none (some 10) = Except.ok [1, 2] ∧
      spec_asOfRows c1Log 10 = some [1] ∧
      ([1, 2] : List Nat) ≠ [1] := by
  refine ⟨?_, rfl, rfl, by decide⟩
  by_cases h : log.isEmpty <;> simp [NeuralakeDeltaTable.query, h]

/-- C2 (counterexample): on the existing one-version table c2Log, an io
failure of the underlying history call does not propagate to the caller:
get_history catches it and the caller instead receives the ShapeError
raised while building the fallback frame. -/
theorem get_history_masks_underlying_error :
    NeuralakeDeltaTable.get_history "events" c2Log (Except.error "io error")
      ≠ Except.error "io error" := by
  intro h
  have h0 : NeuralakeDeltaTable.get_history "events" c2Log (Except.error "io error")
      = Except.error "ShapeError: could not create a new DataFrame: columns have differing lengths" := rfl
  rw [h0] at h
  injection h with h2
  exact absurd h2 (by decide)

/-- C2 (amended): for every existing table, a failure of the underlying
history call is caught inside get_history; the attempted fallback frame
has columns of differing lengths (one version and operation cell, zero
timestamp cells), so its construction itself raises and the caller
receives that ShapeError — an error rather than a synthesized history, but
not the original failure. -/
theorem get_history_fallback_construction_fails {ρ : Type} (table_name : String)
    (log : DeltaLog ρ) (e : String) (h : log ≠ []) :
    NeuralakeDeltaTable.get_history table_name log (Except.error e)
      = Except.error "ShapeError: could not create a new DataFrame: columns have differing lengths" := by
  have hne : log.isEmpty = false := by simp [List.isEmpty_iff, h]
  simp [NeuralakeDeltaTable.get_history, hne, NeuralakeDeltaTable.version,
    mkFrameOfColumns]

/-- C2 (witness for the amended theorem). -/
theorem get_history_fallback_construction_fails_witness :
    NeuralakeDeltaTable.get_history "events" c2Log (Except.error "io error")
      = Except.error "ShapeError: could not create a new DataFrame: columns have differing lengths" :=
  get_history_fallback_construction_fails "events" c2Log "io error" (by decide)

/-- C3 (counterexample): two export_metadata calls on the same registry at
clock ticks 0 and 1 return different documents — the export_time field
embeds the call time, so the document is not a function of the registered
metadata alone. -/
theorem export_metadata_differs_across_calls :
    CatalogRegistry.export_metadata (CatalogRegistry.empty : CatalogRegistry Nat) 0
      ≠ CatalogRegistry.export_metadata (CatalogRegistry.empty : CatalogRegistry Nat) 1 := by
  intro h
  have h2 := congrArg exportTimeOf h
  have h0 : exportTimeOf
      (CatalogRegistry.export_metadata (CatalogRegistry.empty : CatalogRegistry Nat) 0) = 0 := rfl
  have h1 : exportTimeOf
      (CatalogRegistry.export_metadata (CatalogRegistry.empty : CatalogRegistry Nat) 1) = 1 := rfl
  rw [h0, h1] at h2
  exact absurd h2 (by decide)

/-- C3 (amended): the tables and total_tables components of the export
document are deterministic functions of the registered metadata — the
method reads only the tables dict and mutates nothing — but the document
embeds the call time as export_time, so whole documents differ across
calls at different times. -/
theorem export_metadata_components_deterministic {ρ : Type}
    (r : CatalogRegistry ρ) (t1 t2 : Nat) :
    (CatalogRegistry.export_metadata r t1).field "tables"
        = (CatalogRegistry.export_metadata r t2).field "tables" ∧
      (CatalogRegistry.export_metadata r t1).field "total_tables"
        = (CatalogRegistry.export_metadata r t2).field "total_tables" :=
  ⟨rfl, rfl⟩

/-- C6: on a table whose version-0 commit exists, create_table with the
default error mode fails before any write (the log is returned unchanged
only inside Except.error, no commit is appended), and create_table on an
existing table succeeds exactly when overwrite mode is requested — the
ignore mode also fails, at the writer layer. -/
theorem create_table_existing_requires_overwrite {ρ : Type}
    (table_name : String) (log : DeltaLog ρ) (rows : List ρ) (now : Nat)
    (mode : String) (h : log ≠ []) :
    NeuralakeDeltaTable.create_table table_name log rows "error" now
        = Except.error ("Table " ++ table_name ++ " already exists") ∧
      exceptIsOk (NeuralakeDeltaTable.create_table table_name log rows mode now)
        = decide (mode = "overwrite") := by
  have hne : log.isEmpty = false := by simp [List.isEmpty_iff, h]
  constructor
  · simp [NeuralakeDeltaTable.create_table, hne]
  · by_cases hm : mode = "overwrite"
    · subst hm
      simp [NeuralakeDeltaTable.create_table, hne, write_deltalake, exceptIsOk]
    · by_cases he : mode = "error"
      · subst he
        simp [NeuralakeDeltaTable.create_table, hne, exceptIsOk]
      · simp [NeuralakeDeltaTable.create_table, hne, hm, he, write_deltalake,
          exceptIsOk]

/-- C6 (witness): the one-version table c2Log rejects a default-mode create
and an ignore-mode create does not succeed either. -/
theorem create_table_existing_requires_overwrite_witness :
    NeuralakeDeltaTable.create_table "t" c2Log [2] "error" 1
        = Except.error ("Table " ++ "t" ++ " already exists") ∧
      exceptIsOk (NeuralakeDeltaTable.create_table "t" c2Log [2] "ignore" 1)
        = decide (("ignore" : String) = "overwrite") :=
  create_table_existing_requires_overwrite "t" c2Log [2] 1 "ignore" (by decide)

/-- C4 (counterexample): after registering table t with a producer handle
and then re-registering t with only an object handle, the metadata lookup
returns the second registration but the function-handle lookup still
returns the first registration's producer, and the second (overwriting)
registration emits exactly one info-level record — no warning. -/
theorem register_overwrite_stale_handle_and_info_log :
    CatalogRegistry.get_table_metadata regT2 "t" = some mdT2 ∧
      CatalogRegistry.get_table_function regT2 "t" = some prodLazy1 ∧
      regT2Log.map LogRecord.level = [LogLevel.info] :=
  ⟨rfl, rfl, rfl⟩

/-- C4 (amended): re-registration under the same name overwrites the
metadata entry (last-write-wins) and any handles the second registration
supplies, but handles it does not supply persist from the first
registration; every registration is logged at info level — no warning —
and registration is total: no strict mode exists and no ConflictError is
ever raised. -/
theorem register_overwrite_semantics {ρ : Type} (r : CatalogRegistry ρ)
    (md1 md2 : TableMetadata) (f1 : Producer ρ) (o2 : TableObject ρ)
    (h : md2.name = md1.name) :
    CatalogRegistry.get_table_metadata
        (CatalogRegistry.register_table
          (CatalogRegistry.register_table r md1 none (some f1)).1
          md2 (some o2) none).1 md1.name = some md2 ∧
      CatalogRegistry.get_table_function
          (CatalogRegistry.register_table
            (CatalogRegistry.register_table r md1 none (some f1)).1
            md2 (some o2) none).1 md1.name
        = CatalogRegistry.get_table_function
            (CatalogRegistry.register_table r md1 none (some f1)).1 md1.name ∧
      CatalogRegistry.get_table_object
          (CatalogRegistry.register_table
            (CatalogRegistry.register_table r md1 none (some f1)).1
            md2 (some o2) none).1 md1.name = some o2 ∧
      ((CatalogRegistry.register_table
          (CatalogRegistry.register_table r md1 none (some f1)).1
          md2 (some o2) none).2).map LogRecord.level = [LogLevel.info] := by
  refine ⟨?_, rfl, ?_, rfl⟩
  · simp only [CatalogRegistry.register_table, CatalogRegistry.get_table_metadata]
    rw [h]
    exact dictGet_insert_self ..
  · simp only [CatalogRegistry.register_table, CatalogRegistry.get_table_object]
    rw [h]
    exact dictGet_insert_self ..

/-- C4 (witness for the amended theorem). -/
theorem register_overwrite_semantics_witness :
    CatalogRegistry.get_table_metadata regT2 "t" = some mdT2 ∧
      CatalogRegistry.get_table_function regT2 "t"
        = CatalogRegistry.get_table_function regT1 "t" ∧
      CatalogRegistry.get_table_object regT2 "t" = some objDelta ∧
      regT2Log.map LogRecord.level = [LogLevel.info] :=
  register_overwrite_semantics (CatalogRegistry.empty : CatalogRegistry Nat)
    mdT1 mdT2 prodLazy1 objDelta rfl

/-- C5: for every registered Function-kind table, Catalog.table invokes the
registered producer with the given kwargs; a returned LazyFrame is passed
through, a DataFrame is wrapped as lazy, any other value fails with the
must-return-DataFrame-or-LazyFrame ValueError (TypeKindError), and an
exception from the producer itself propagates. -/
theorem catalog_table_function_kind {ρ : Type} (r : CatalogRegistry ρ)
    (name : String) (kwargs : Kwargs) (md : TableMetadata) (f : Producer ρ)
    (hmd : CatalogRegistry.get_table_metadata r name = some md)
    (hk : md.tableType = TableType.function)
    (hf : CatalogRegistry.get_table_function r name = some f) :
    Catalog.table r name kwargs =
      match f kwargs with
      | Except.ok (PyValue.dataFrame rows) => Except.ok (PyValue.lazyFrame rows)
      | Except.ok (PyValue.lazyFrame rows) => Except.ok (PyValue.lazyFrame rows)
      | Except.ok (PyValue.other _) => Except.error (CatalogError.typeKindError name)
      | Except.error e => Except.error (CatalogError.raised e) := by
  simp only [Catalog.table, hmd, hk, hf]
  rcases hv : f kwargs with e | v
  · rfl
  · cases v <;> rfl

/-- C5 (witness): the table bad, whose producer returns a non-frame value,
fails with the TypeKindError ValueError. -/
theorem catalog_table_function_kind_witness :
    Catalog.table regBad "bad" [] = Except.error (CatalogError.typeKindError "bad") :=
  (catalog_table_function_kind regBad "bad" [] mdBad prodOther rfl rfl rfl).trans rfl

/-- C7 (counterexample): for the table boom, whose probe raises, the
description returned is the four-key dict with an empty inferred schema —
its keys carry no schema_unknown flag. -/
theorem describe_table_no_schema_unknown_flag :
    Catalog.describe_table regBoom schemaOfNat "boom"
        = Except.ok
            [("metadata", mdBoom.to_dict),
             ("inferred_schema", Doc.obj []),
             ("column_count", Doc.num 0),
             ("available", Doc.bool true)] ∧
      "schema_unknown" ∉ dictKeys
          [("metadata", mdBoom.to_dict),
           ("inferred_schema", Doc.obj []),
           ("column_count", Doc.num 0),
           ("available", Doc.bool true)] :=
  ⟨rfl, by decide⟩

/-- C7 (amended): for every registered table whose zero-row probe query
fails, describe_table does not propagate the probe's error; it degrades to
a metadata-only description with an empty inferred_schema and
column_count 0 (available stays true) — the empty inferred schema, not a
dedicated schema_unknown flag, is the only degradation signal. -/
theorem describe_table_probe_failure_degrades {ρ : Type} (r : CatalogRegistry ρ)
    (schemaOf : List ρ → List (String × String)) (name : String)
    (md : TableMetadata) (e : CatalogError)
    (hmd : CatalogRegistry.get_table_metadata r name = some md)
    (hprobe : Catalog.table r name [] = Except.error e) :
    Catalog.describe_table r schemaOf name =
      Except.ok
        [("metadata", md.to_dict),
         ("inferred_schema", Doc.obj []),
         ("column_count", Doc.num 0),
         ("available", Doc.bool true)] := by
  simp [Catalog.describe_table, hmd, hprobe]

/-- C7 (witness for the amended theorem). -/
theorem describe_table_probe_failure_degrades_witness :
    Catalog.describe_table regBoom schemaOfNat "boom"
      = Except.ok
          [("metadata", mdBoom.to_dict),
           ("inferred_schema", Doc.obj []),
           ("column_count", Doc.num 0),
           ("available", Doc.bool true)] :=
  describe_table_probe_failure_degrades regBoom schemaOfNat "boom" mdBoom
    (CatalogError.raised "producer exploded") rfl rfl

/-- C10: for every well-formed registry and name not present in it, the
three registry lookups are total and return none rather than raising, and
only the Catalog facade (table and describe_table) converts the absent
entry into a not-found ValueError. -/
theorem registry_lookups_total_on_absent {ρ : Type} (r : CatalogRegistry ρ)
    (n : String) (kwargs : Kwargs) (schemaOf : List ρ → List (String × String))
    (hwf : CatalogRegistry.Wf r) (h : n ∉ dictKeys r.tables) :
    CatalogRegistry.get_table_metadata r n = none ∧
      CatalogRegistry.get_table_function r n = none ∧
      CatalogRegistry.get_table_object r n = none ∧
      Catalog.table r n kwargs = Except.error (CatalogError.notFound n) ∧
      Catalog.describe_table r schemaOf n = Except.error (CatalogError.notFound n) := by
  have h1 : CatalogRegistry.get_table_metadata r n = none :=
    dictGet_eq_none n r.tables h
  have h2 : n ∉ dictKeys r.tableFunctions := fun hm => h (hwf.1 n hm)
  have h3 : n ∉ dictKeys r.tableObjects := fun hm => h (hwf.2 n hm)
  refine ⟨h1, dictGet_eq_none n r.tableFunctions h2,
    dictGet_eq_none n r.tableObjects h3, ?_, ?_⟩
  · simp [Catalog.table, h1]
  · simp [Catalog.describe_table, h1]

/-- C10 (witness): the name missing is absent from the registry holding
only the table boom. -/
theorem registry_lookups_total_on_absent_witness :
    CatalogRegistry.get_table_metadata regBoom "missing" = none ∧
      CatalogRegistry.get_table_function regBoom "missing" = none ∧
      CatalogRegistry.get_table_object regBoom "missing" = none ∧
      Catalog.table regBoom "missing" [] = Except.error (CatalogError.notFound "missing") ∧
      Catalog.describe_table regBoom schemaOfNat "missing"
        = Except.error (CatalogError.notFound "missing") :=
  registry_lookups_total_on_absent regBoom "missing" [] schemaOfNat
    (by refine ⟨?_, ?_⟩ <;> decide) (by decide)

theorem firstOccAux_congr (l : List String) : ∀ (s₁ s₂ : List String),
    (∀ x, x ∈ s₁ ↔ x ∈ s₂) → firstOccAux s₁ l = firstOccAux s₂ l := by
  induction l with
  | nil => intro s₁ s₂ _; rfl
  | cons k ks ih =>
    intro s₁ s₂ h
    simp only [firstOccAux]
    by_cases hk : k ∈ s₁
    · rw [if_pos hk, if_pos ((h k).mp hk)]
      exact ih s₁ s₂ h
    · rw [if_neg hk, if_neg (fun hh => hk ((h k).mpr hh))]
      rw [ih (k :: s₁) (k :: s₂) (by intro x; simp [h x])]

theorem registerAll_keys {ρ : Type} (es : List (Registration ρ)) :
    ∀ (r : CatalogRegistry ρ),
      dictKeys (registerAll r es).tables
        = dictKeys r.tables
            ++ firstOccAux (dictKeys r.tables) (es.map (fun e => e.metadata.name)) := by
  induction es with
  | nil => intro r; simp [registerAll, firstOccAux]
  | cons e es ih =>
    intro r
    simp only [registerAll, List.map_cons, firstOccAux]
    rw [ih]
    have hreg : (CatalogRegistry.register_table r e.metadata e.obj e.func).1.tables
        = dictInsert e.metadata.name e.metadata r.tables := rfl
    rw [hreg, dictKeys_insert]
    by_cases hk : e.metadata.name ∈ dictKeys r.tables
    · rw [if_pos hk, if_pos hk]
    · rw [if_neg hk, if_neg hk, List.append_assoc]
      congr 1
      rw [List.singleton_append]
      congr 1
      apply firstOccAux_congr
      intro x
      constructor
      · intro hx
        rcases List.mem_append.mp hx with h1 | h1
        · exact List.mem_cons_of_mem _ h1
        · simp at h1
          simp [h1]
      · intro hx
        rcases List.mem_cons.mp hx with h1 | h1
        · simp [h1]
        · exact List.mem_append_left _ h1

theorem registerAll_nodup {ρ : Type} (es : List (Registration ρ)) :
    ∀ (r : CatalogRegistry ρ), (dictKeys r.tables).Nodup →
      (dictKeys (registerAll r es).tables).Nodup := by
  induction es with
  | nil => intro r h; exact h
  | cons e es ih =>
    intro r h
    exact ih _ (dictKeys_insert_nodup e.metadata.name e.metadata r.tables h)

theorem filter_entries_map_fst (d : List (String × TableMetadata)) (t : TableType)
    (h : (dictKeys d).Nodup) :
    (d.filter (fun p => decide (p.2.tableType = t))).map Prod.fst
      = (dictKeys d).filter
          (fun n => decide ((dictGet n d).map TableMetadata.tableType = some t)) := by
  induction d with
  | nil => rfl
  | cons hd tl ih =>
    obtain ⟨k, m⟩ := hd
    simp only [dictKeys, List.map_cons, List.nodup_cons] at h
    have hk : k ∉ dictKeys tl := by simpa [dictKeys] using h.1
    have htl := ih h.2
    have hcong : (dictKeys tl).filter
          (fun n => decide ((dictGet n ((k, m) :: tl)).map TableMetadata.tableType = some t))
        = (dictKeys tl).filter
            (fun n => decide ((dictGet n tl).map TableMetadata.tableType = some t)) := by
      apply List.filter_congr
      intro n hn
      have hne : ¬(k = n) := fun hh => hk (hh ▸ hn)
      simp [dictGet, hne]
    simp only [dictKeys, List.map_cons] at hcong htl ⊢
    by_cases hm : m.tableType = t
    · rw [List.filter_cons_of_pos (by simp [hm]), List.map_cons,
        List.filter_cons_of_pos (by simp [dictGet, hm]), htl, hcong]
    · rw [List.filter_cons_of_neg (by simp [hm]),
        List.filter_cons_of_neg (by simp [dictGet, hm]), htl, hcong]

/-- C8: for every sequence of registrations replayed from the empty
registry, list_tables returns the table names in order of first
registration, and list_tables with a kind filter returns exactly the
subsequence of that order whose registered kind is the requested one. -/
theorem list_tables_insertion_order_and_kind_filter {ρ : Type}
    (es : List (Registration ρ)) (t : TableType) :
    (registerAll CatalogRegistry.empty es).list_tables none
        = firstOccurrences (es.map (fun e => e.metadata.name)) ∧
      (registerAll CatalogRegistry.empty es).list_tables (some t)
        = ((registerAll CatalogRegistry.empty es).list_tables none).filter
            (fun n => decide
              (registeredKind (registerAll CatalogRegistry.empty es) n = some t)) := by
  constructor
  · have h := registerAll_keys es (CatalogRegistry.empty : CatalogRegistry ρ)
    simpa [CatalogRegistry.list_tables, firstOccurrences, CatalogRegistry.empty,
      dictKeys] using h
  · have hnd : (dictKeys (registerAll (CatalogRegistry.empty : CatalogRegistry ρ)
        es).tables).Nodup := by
      apply registerAll_nodup
      simp [CatalogRegistry.empty, dictKeys]
    have h := filter_entries_map_fst
      (registerAll (CatalogRegistry.empty : CatalogRegistry ρ) es).tables t hnd
    simpa [CatalogRegistry.list_tables, registeredKind,
      CatalogRegistry.get_table_metadata, dictKeys] using h

/-- C9: the schema merge is idempotent and stable under repetition — for
every schema s with distinct column names, merging s with itself yields s;
and whenever merging old with new succeeds with result m, merging m with
the same new schema again yields m unchanged. -/
theorem merge_schema_idempotent_and_stable (s old new m : Schema)
    (hs : (dictKeys s).Nodup) (hn : (dictKeys new).Nodup)
    (hm : mergeSchemas old new = Except.ok m) :
    mergeSchemas s s = Except.ok s ∧ mergeSchemas m new = Except.ok m := by
  constructor
  · have hall : s.all (fun c => match dictGet c.1 s with
        | none => true
        | some t => decide (t = c.2)) = true := by
      rw [List.all_eq_true]
      intro c hc
      obtain ⟨a, b⟩ := c
      rw [dictGet_mem_nodup hs hc]
      simp
    have hfil : s.filter (fun c => (dictGet c.1 s).isNone) = [] := by
      rw [List.filter_eq_nil_iff]
      intro c hc
      obtain ⟨a, b⟩ := c
      rw [dictGet_mem_nodup hs hc]
      simp
    simp [mergeSchemas, hall, hfil]
  · by_cases hc : new.all (fun c => match dictGet c.1 old with
        | none => true
        | some t => decide (t = c.2)) = true
    · have hm2 : m = old ++ new.filter (fun c => (dictGet c.1 old).isNone) := by
        simp only [mergeSchemas, hc, if_true] at hm
        exact (Except.ok.inj hm).symm
      have hkey : ∀ a b, (a, b) ∈ new → dictGet a m = some b := by
        intro a b hab
        rw [hm2, dictGet_append]
        cases h1 : dictGet a old with
        | some t =>
          have ht := (List.all_eq_true.mp hc) (a, b) hab
          simp only [h1, decide_eq_true_eq] at ht
          simp [ht]
        | none =>
          have hsub : (dictKeys (new.filter (fun c => (dictGet c.1 old).isNone))).Nodup := by
            simp only [dictKeys] at hn ⊢
            exact ((new.filter_sublist).map Prod.fst).nodup hn
          exact dictGet_mem_nodup hsub
            (List.mem_filter.mpr ⟨hab, by simp [h1]⟩)
      have hall2 : new.all (fun c => match dictGet c.1 m with
          | none => true
          | some t => decide (t = c.2)) = true := by
        rw [List.all_eq_true]
        intro c hcm
        obtain ⟨a, b⟩ := c
        rw [hkey a b hcm]
        simp
      have hfil2 : new.filter (fun c => (dictGet c.1 m).isNone) = [] := by
        rw [List.filter_eq_nil_iff]
        intro c hcm
        obtain ⟨a, b⟩ := c
        rw [hkey a b hcm]
        simp
      simp only [mergeSchemas]
      rw [if_pos hall2, hfil2, List.append_nil]
    · simp only [mergeSchemas, hc, if_false] at hm
      cases hm

/-- C9 (witness): the merged schema scmM is a fixed point of merging with
itself and of repeating the merge with scmNew. -/
theorem merge_schema_idempotent_and_stable_witness :
    mergeSchemas scmM scmM = Except.ok scmM ∧
      mergeSchemas scmM scmNew = Except.ok scmM :=
  merge_schema_idempotent_and_stable scmM scmOld scmNew scmM
    (by decide) (by decide) rfl

end Neuralake
